import Mathlib

/-!
Verification development for the shaka-packager-s3 repository.

The TypeScript sources (src/packager.ts, src/cli.ts, src/util.ts) are shallowly
embedded below.  Pure string-building code (createShakaArgs and its helpers,
parseInputOptions, createS3cmdArgs, toUrl) is translated directly into Lean
functions.  The effectful pipeline (doPackage = validate → prepare → download →
invoke packager → remove downloaded files → upload → cleanup) is embedded as a
pure state-transition function over an explicit filesystem model together with
an oracle giving the exit status of each external subprocess; it returns the
run result, the final filesystem and the trace of performed effects.

Modelling conventions:
* JavaScript `undefined` for an optional value is `Option.none`; JS truthiness
  of strings (empty string is falsy) is modelled explicitly wherever the source
  relies on it (`jsOr`, `truthy`).
* Filesystem paths are lists of components (`FsPath`); `node:path.join` on such
  paths is list append, `path.basename` is the last component.  Strings coming
  from the command line are converted with `strToPath` (split on '/').  No
  `..`/`.` normalisation is modelled; the repository never produces such paths.
* `String.prototype.replace` with a string pattern replaces only the first
  occurrence; `replaceFirst` mirrors that.  `indexOf(pat) === -1` is modelled
  by `strContains`.
* The WHATWG `URL` class is modelled by `Url`/`parseUrl` for the URL shapes the
  repository builds (scheme://host/path); no percent-encoding or `..`
  normalisation is modelled.  `path.resolve` against the process working
  directory keeps the symbolic component ".".
-/

/-- `strStarts s pre`: does `s` start with `pre`? -/
def strStarts (s pre : String) : Bool := pre.data.isPrefixOf s.data

/-- `strEnds s suf`: does `s` end with `suf`? -/
def strEnds (s suf : String) : Bool := suf.data.isSuffixOf s.data

/-- Character-level worker for `splitOnL`: split `cs` at every occurrence of
the nonempty pattern `pat`, scanning left to right without overlap (the
semantics of both `String.prototype.split` and `String.splitOn`).  The fuel is
initialised to the length of `cs` and never runs out, since every step
consumes at least one character; it only makes the recursion structural. -/
def splitOnAux (pat : List Char) : Nat → List Char → List Char → List (List Char)
  | _, [], acc => [acc.reverse]
  | 0, cs, acc => [acc.reverse ++ cs]
  | fuel + 1, c :: rest, acc =>
    if pat.isPrefixOf (c :: rest) then
      acc.reverse :: splitOnAux pat fuel ((c :: rest).drop pat.length) []
    else
      splitOnAux pat fuel rest (c :: acc)

/-- `s.split(pat)` / `String.splitOn`, as a structurally recursive function. -/
def splitOnL (s pat : String) : List String :=
  match pat.data with
  | [] => [s]
  | p :: ps => (splitOnAux (p :: ps) s.data.length s.data []).map String.mk

/-- Filesystem paths as lists of components ('/'-separated in the real code). -/
abbrev FsPath := List String

def strToPath (s : String) : FsPath := splitOnL s "/"

def pathToStr (p : FsPath) : String := String.intercalate "/" p

/-- JS `a || d` for an optional string `a` (undefined and "" are falsy). -/
def jsOr (o : Option String) (d : String) : String :=
  match o with
  | some s => if s = "" then d else s
  | none => d

/-- JS `s || d` for a plain string `s` ("" is falsy). -/
def jsOrStr (s d : String) : String := if s = "" then d else s

/-- JS truthiness of an optional string. -/
def truthy (o : Option String) : Bool :=
  match o with
  | some s => s != ""
  | none => false

/-- `s.indexOf(pat) !== -1`: whether `pat` occurs in `s`
(splitting on the pattern yields at least two pieces). -/
def strContains (s pat : String) : Bool :=
  2 ≤ (splitOnL s pat).length

/-- JS `String.prototype.replace(pat, rep)` with a string pattern:
replace only the first occurrence of `pat`. -/
def replaceFirst (s pat rep : String) : String :=
  match splitOnL s pat with
  | [] => s
  | [x] => x
  | x :: xs => x ++ rep ++ String.intercalate pat xs

/-- `path.basename`: last nonempty '/'-separated component. -/
def basename (s : String) : String :=
  ((splitOnL s "/").filter (fun c => c ≠ "")).getLastD s

/-- `path.resolve(a, b)` for the shapes used here: an absolute `b` wins,
otherwise `b` is appended to `a`.  (No `..` normalisation.) -/
def pathResolve (a b : String) : String :=
  if strStarts b "/" then b
  else if strEnds a "/" then a ++ b
  else a ++ "/" ++ b

/-! ## URL model (src/util.ts and node:url) -/

structure Url where
  protocol : String
  host : String
  pathname : String
  deriving DecidableEq, Repr

/-- Serialisation of the URL shapes built here (`url.toString()` / `url.href`). -/
def Url.toStr (u : Url) : String := u.protocol ++ "//" ++ u.host ++ u.pathname

/-- Does the string match `/^[a-z0-9]+:.*/` (the test used by `toUrl`)? -/
def isSchemeChar (c : Char) : Bool := ('a' ≤ c && c ≤ 'z') || ('0' ≤ c && c ≤ '9')

def hasUrlScheme (s : String) : Bool :=
  let pre := s.data.takeWhile isSchemeChar
  decide (0 < pre.length) && [':'].isPrefixOf (s.data.drop pre.length)

/-- `new URL(s)` for an absolute URL string (scheme:, optional //host, path). -/
def parseUrl (s : String) : Url :=
  let scheme := s.data.takeWhile (fun c => c ≠ ':')
  let rest := s.data.drop (scheme.length + 1)
  if ['/', '/'].isPrefixOf rest then
    let rest2 := rest.drop 2
    let host := rest2.takeWhile (fun c => c ≠ '/')
    { protocol := String.mk (scheme ++ [':']), host := String.mk host,
      pathname := String.mk (rest2.drop host.length) }
  else
    { protocol := String.mk (scheme ++ [':']), host := "",
      pathname := String.mk rest }

/-- src/util.ts `toUrl`: parse as URL if it has a scheme, else a file URL of the
path resolved against the working directory (kept symbolic as "."). -/
def toUrl (s : String) : Url :=
  if hasUrlScheme s then parseUrl s
  else { protocol := "file:", host := "", pathname := pathResolve "." s }

/-- src/util.ts `toUrlOrUndefined` (`!url` is true for undefined and ""). -/
def toUrlOrUndefined (s : Option String) : Option Url :=
  match s with
  | none => none
  | some u => if u = "" then none else some (toUrl u)

/-- src/util.ts `createS3cmdArgs`. -/
def createS3cmdArgs (cmdArgs : List String) (s3EndpointUrl : Option String) :
    List String :=
  ["s3"] ++
    (match s3EndpointUrl with
     | some u => if u = "" then [] else ["--endpoint-url=" ++ u]
     | none => []) ++
    cmdArgs

/-! ## Data model (src/packager.ts) -/

inductive InputType where
  | audio
  | video
  | text
  deriving DecidableEq, Repr

structure Input where
  type : InputType
  key : String
  filename : String
  hlsName : Option String := none
  deriving DecidableEq, Repr

structure PackageFormatOptions where
  hlsOnly : Bool := false
  dashOnly : Bool := false
  segmentSingleFile : Bool := false
  segmentSingleFileTemplate : Option String := none
  segmentDuration : Option Float := none
  dashManifestName : Option String := none
  hlsManifestName : Option String := none
  tsOutput : Bool := false

structure PackageOptions where
  inputs : List Input
  source : Option String := none
  dest : String
  stagingDir : Option String := none
  noImplicitAudio : Bool := false
  packageFormatOptions : PackageFormatOptions := {}
  shakaExecutable : Option String := none
  serviceAccessToken : Option String := none
  s3EndpointUrl : Option String := none

/-! ## Argument construction (createShakaArgs, src/packager.ts) -/

/-- `template?.replace('$KEY$', key) || fallback` (undefined template and an
empty replacement result both fall back). -/
def singleFileOutName (template : Option String) (key fallback : String) : String :=
  match template with
  | none => fallback
  | some t =>
    let r := replaceFirst t "$KEY$" key
    if r = "" then fallback else r

def videoSingleFileOut (pfo : PackageFormatOptions) (input : Input) : String :=
  singleFileOutName pfo.segmentSingleFileTemplate input.key
    ("video-" ++ input.key ++ ".mp4")

def videoStreamOptions (pfo : PackageFormatOptions) (input : Input) : List String :=
  let playlistName := "video-" ++ input.key
  ["in=" ++ input.filename, "stream=video",
   "playlist_name=" ++ playlistName ++ ".m3u8"] ++
  (if pfo.segmentSingleFile then
    ["out=" ++ videoSingleFileOut pfo input]
  else if pfo.tsOutput then
    ["segment_template=" ++ playlistName ++ "/$Number$.ts"]
  else
    ["init_segment=" ++ playlistName ++ "/init.mp4",
     "segment_template=" ++ playlistName ++ "/$Number$.m4s"])

def textStreamOptions (input : Input) : List String :=
  let playlistName := "text-" ++ input.key
  ["in=" ++ input.filename, "stream=text",
   "segment_template=" ++ playlistName ++ "/$Number$.vtt",
   "playlist_name=" ++ playlistName ++ ".m3u8",
   "hls_group_id=text"] ++
  (match input.hlsName with
   | some n => if n = "" then [] else ["hls_name=" ++ n]
   | none => [])

/-- The per-input loop of createShakaArgs: video and text inputs each emit one
comma-joined clause, audio inputs emit nothing there. -/
def streamClauses (pfo : PackageFormatOptions) (inputs : List Input) : List String :=
  inputs.filterMap (fun input =>
    match input.type with
    | InputType.video => some (String.intercalate "," (videoStreamOptions pfo input))
    | InputType.text => some (String.intercalate "," (textStreamOptions input))
    | InputType.audio => none)

/-- src/packager.ts `getInputForAudio`. -/
def getInputForAudio (inputs : List Input) (noImplicitAudio : Bool) : Option Input :=
  if noImplicitAudio then
    inputs.find? (fun input => input.type == InputType.audio)
  else
    match inputs.find? (fun input => input.type == InputType.audio) with
    | some a => some a
    | none => inputs.find? (fun input => input.type == InputType.video)

/-- "Ensure non-duplicate key": prefix the audio key with `audio-` when some
video input carries the same key. -/
def audioOutKey (inputs : List Input) (inputForAudio : Input) : String :=
  if inputs.any (fun input =>
      input.type == InputType.video && input.key == inputForAudio.key) then
    "audio-" ++ inputForAudio.key
  else
    inputForAudio.key

def audioSingleFileOut (inputs : List Input) (pfo : PackageFormatOptions)
    (inputForAudio : Input) : String :=
  singleFileOutName pfo.segmentSingleFileTemplate
    (audioOutKey inputs inputForAudio) "audio.mp4"

def audioStreamOptions (inputs : List Input) (pfo : PackageFormatOptions)
    (inputForAudio : Input) : List String :=
  ["in=" ++ inputForAudio.filename, "stream=audio", "playlist_name=audio.m3u8",
   "hls_group_id=audio",
   "hls_name=" ++ jsOr inputForAudio.hlsName "defaultaudio"] ++
  (if pfo.segmentSingleFile then
    ["out=" ++ audioSingleFileOut inputs pfo inputForAudio]
  else if pfo.tsOutput then
    ["segment_template=audio/$Number$.aac"]
  else
    ["init_segment=audio/init.mp4", "segment_template=audio/$Number$.m4s"])

def audioClauseFor (inputs : List Input) (pfo : PackageFormatOptions)
    (inputForAudio : Input) : String :=
  String.intercalate "," (audioStreamOptions inputs pfo inputForAudio)

/-- The audio clause of createShakaArgs, if one is emitted. -/
def audioClause (inputs : List Input) (noImplicitAudio : Bool)
    (pfo : PackageFormatOptions) : Option String :=
  (getInputForAudio inputs noImplicitAudio).map (audioClauseFor inputs pfo)

/-- `--segment_duration` flag (a JS number: 0 and NaN are falsy). -/
def segmentDurationFlags (pfo : PackageFormatOptions) : List String :=
  match pfo.segmentDuration with
  | some d => if d == 0.0 || d != d then [] else ["--segment_duration", toString d]
  | none => []

def globalFlags (pfo : PackageFormatOptions) : List String :=
  (if pfo.dashOnly then []
   else ["--hls_master_playlist_output", jsOr pfo.hlsManifestName "index.m3u8"]) ++
  (if pfo.hlsOnly then []
   else ["--generate_static_live_mpd", "--mpd_output",
         jsOr pfo.dashManifestName "manifest.mpd"]) ++
  segmentDurationFlags pfo

/-- src/packager.ts `createShakaArgs`: the video/text clauses in input order,
then the audio clause if any, then the global manifest flags.
An absent `packageFormatOptions` object behaves exactly like the all-default
record (every access goes through `?.` with a false/undefined default). -/
def createShakaArgs (inputs : List Input) (noImplicitAudio : Bool)
    (pfo : PackageFormatOptions) : List String :=
  streamClauses pfo inputs ++
    (audioClause inputs noImplicitAudio pfo).toList ++
    globalFlags pfo

/-! ## CLI input parsing (src/cli.ts `parseInputOptions`) -/

/-- One iteration of the `parseInputOptions` loop:
`const [type, keyAndFilename] = s.split(':'); const [key, filename] =
keyAndFilename.split('='); if (type && key && filename) push({...})`.
An option without ':' makes the JS code fail on `undefined.split`; it yields
`none` here, as do the skipped (falsy-field) cases. -/
def parseInputOption (s : String) : Option Input :=
  match splitOnL s ":" with
  | [] => none
  | [_] => none
  | type :: keyAndFilename :: _ =>
    match splitOnL keyAndFilename "=" with
    | key :: filename :: _ =>
      if type ≠ "" ∧ key ≠ "" ∧ filename ≠ "" then
        some { type := if type = "a" then InputType.audio else InputType.video,
               key := key, filename := filename }
      else none
    | _ => none

def parseInputOptions (inputOptions : List String) : List Input :=
  inputOptions.filterMap parseInputOption

/-! ## Input resolution (src/packager.ts `download`)

`download` performs at most one external transfer.  `downloadPlan` computes,
purely from the input and configuration, which of the three outcomes the
function takes: a local result (no subprocess), a single transfer subprocess
together with the local path it writes, or an error thrown before any
subprocess.  `runDownload` then applies the subprocess exit status. -/

inductive DlPlan where
  /-- No transfer: `download` returns this filename. -/
  | localResult (filename : String)
  /-- One spawned transfer (`aws` or `curl`) writing `localPath`. -/
  | transfer (prog : String) (args : List String) (localPath : FsPath)
  /-- An error thrown before any subprocess. -/
  | err (msg : String)
  deriving DecidableEq, Repr

def DlPlan.isTransfer : DlPlan → Bool
  | .transfer _ _ _ => true
  | _ => false

/-- Result filename handed to createShakaArgs when the download succeeds. -/
def DlPlan.resultPath : DlPlan → String
  | .localResult s => s
  | .transfer _ _ lf => pathToStr lf
  | .err _ => ""

/-- `new URL(join(sourceURL.pathname, filename), sourceURL)`: the base keeps
its scheme and host, the pathname becomes the joined (absolute) path. -/
def urlWithJoinedPath (base : Url) (filename : String) : Url :=
  let j :=
    if base.pathname = "" then filename
    else if strEnds base.pathname "/" then base.pathname ++ filename
    else base.pathname ++ "/" ++ filename
  { base with pathname := if strStarts j "/" then j else "/" ++ j }

/-- src/packager.ts `download`, as a plan (see `DlPlan`). -/
def downloadPlan (input : Input) (source : Option Url) (stagingDir : Option FsPath)
    (serviceAccessToken : Option String) (endpointUrl : Option String) : DlPlan :=
  let inputFileURL : Option Url :=
    if strContains input.filename "://" then some (toUrl input.filename) else none
  match (match inputFileURL with | some u => some u | none => source) with
  | none => .localResult input.filename
  | some sourceURL =>
    if sourceURL.protocol = "" ∨ sourceURL.protocol = "file:" then
      .localResult (pathResolve (jsOrStr sourceURL.pathname ".") input.filename)
    else
      match stagingDir with
      | none => .err "Staging directory required for remote download"
      | some stg =>
        if sourceURL.protocol = "s3:" then
          let sourceFileS3URL :=
            match inputFileURL with
            | some u => u
            | none => urlWithJoinedPath sourceURL input.filename
          let localFilename : FsPath :=
            stg ++ (match inputFileURL with
                    | some _ => [basename input.filename]
                    | none => strToPath input.filename)
          .transfer "aws"
            (createS3cmdArgs
              ["cp", sourceFileS3URL.toStr, pathToStr localFilename] endpointUrl)
            localFilename
        else if sourceURL.protocol = "http:" ∨ sourceURL.protocol = "https:" then
          let sourceFileURL :=
            match inputFileURL with
            | some u => u
            | none =>
              let baseUrl :=
                if strEnds sourceURL.toStr "/" then sourceURL.toStr
                else sourceURL.toStr ++ "/"
              let filePath :=
                if strStarts input.filename "/" then input.filename.drop 1
                else input.filename
              parseUrl (baseUrl ++ filePath)
          let localFilename : FsPath := stg ++ [basename input.filename]
          let auth : List String :=
            match serviceAccessToken with
            | some t => if t = "" then [] else ["-H", "x-jwt: Bearer " ++ t]
            | none => []
          .transfer "curl"
            (auth ++ ["-o", pathToStr localFilename, sourceFileURL.toStr])
            localFilename
        else
          .err ("Unsupported protocol for download: " ++ sourceURL.protocol)

/-- Apply the transfer's exit status: a non-zero status throws
'Download failed', otherwise the local filename is returned. -/
def runDownload (p : DlPlan) (ok : Bool) : Except String String :=
  match p with
  | .localResult s => .ok s
  | .transfer _ _ lf => if ok then .ok (pathToStr lf) else .error "Download failed"
  | .err m => .error m

/-! ## Filesystem and effect model for one packaging run -/

/-- A flat filesystem: the set of directories and the set of files (both as
component paths). -/
structure FS where
  dirs : List FsPath
  files : List FsPath
  deriving DecidableEq, Repr

inductive FsEvent where
  | mkdirp (dir : FsPath)
  | spawnDownload (prog : String) (args : List String)
  | spawnPackager (prog : String) (args : List String)
  | unlink (p : FsPath)
  | moveStaged (src dst : FsPath)
  | spawnUpload (prog : String) (args : List String)
  | rmrf (dir : FsPath)
  deriving DecidableEq, Repr

def FsEvent.isSpawnPackager : FsEvent → Bool
  | .spawnPackager _ _ => true
  | _ => false

/-- Exit statuses of the external subprocesses and the set of files the shaka
packager writes (relative to the staging directory) when it succeeds. -/
structure RunOracle where
  dlOk : Nat → Bool
  packagerOk : Bool
  packagerOutputs : List String
  uploadOk : Bool

def errMsg : Except String Unit → Option String
  | .error e => some e
  | .ok _ => none

def mkdirpFS (d : FsPath) (fs : FS) : FS :=
  { fs with dirs := if d ∈ fs.dirs then fs.dirs else fs.dirs ++ [d] }

/-- `rmSync(dir, {recursive: true, force: true})`: drop the directory and
everything below it. -/
def rmrfP (d : FsPath) (fs : FS) : FS :=
  { dirs := fs.dirs.filter (fun x => !(d.isPrefixOf x)),
    files := fs.files.filter (fun x => !(d.isPrefixOf x)) }

/-! ## The pipeline (src/packager.ts) -/

/-- src/packager.ts `validateOptions`. -/
def validateOptions (opts : PackageOptions) : Except String Unit :=
  if opts.packageFormatOptions.hlsOnly && opts.packageFormatOptions.dashOnly then
    .error "Cannot disable both hls and dash"
  else
    match opts.packageFormatOptions.segmentSingleFileTemplate with
    | some t =>
      if t ≠ "" ∧ ¬ strContains t "$KEY$" then
        .error "segmentSingleFileTemplate must contain $KEY$"
      else .ok ()
    | none => .ok ()

/-- The per-run staging directory `join(stagingDir, jobId)` created by
`prepare` (the random job id is a parameter; it contains no '/'). -/
def jobDirOf (opts : PackageOptions) (jobId : String) : FsPath :=
  strToPath (opts.stagingDir.getD "/tmp/data") ++ [jobId]

/-- src/packager.ts `prepare`: create the job directory if absent. -/
def prepareRun (opts : PackageOptions) (jobId : String) (fs : FS) :
    FS × List FsEvent :=
  let jobDir := jobDirOf opts jobId
  if jobDir ∈ fs.dirs then (fs, [])
  else ({ fs with dirs := fs.dirs ++ [jobDir] }, [FsEvent.mkdirp jobDir])

/-- The download plan of one input inside `createPackage`. -/
def planFor (opts : PackageOptions) (stagingDir : FsPath) (input : Input) : DlPlan :=
  downloadPlan input (toUrlOrUndefined opts.source) (some stagingDir)
    opts.serviceAccessToken opts.s3EndpointUrl

/-- Transfer subprocesses spawned by the download fan-out.  All downloads run
(synchronously, in array order) before `Promise.all` is awaited, so every
transfer is spawned even when an earlier one failed. -/
def dlEvents (plans : List DlPlan) : List FsEvent :=
  plans.filterMap (fun p =>
    match p with
    | .transfer prog args _ => some (FsEvent.spawnDownload prog args)
    | _ => none)

/-- Files written into the staging directory by the successful transfers
(the i-th input's transfer succeeds iff `ok i`). -/
def dlWrites : List DlPlan → (Nat → Bool) → Nat → List FsPath
  | [], _, _ => []
  | .transfer _ _ lf :: rest, ok, i =>
    (if ok i then [lf] else []) ++ dlWrites rest ok (i + 1)
  | _ :: rest, ok, i => dlWrites rest ok (i + 1)

/-- The first download rejection in input order (what `Promise.all` rejects
with), if any: a pre-spawn error keeps its message, a failed transfer is
'Download failed'. -/
def dlFirstError : List DlPlan → (Nat → Bool) → Nat → Option String
  | [], _, _ => none
  | .err m :: _, _, _ => some m
  | .transfer _ _ _ :: rest, ok, i =>
    if ok i then dlFirstError rest ok (i + 1) else some "Download failed"
  | .localResult _ :: rest, ok, i => dlFirstError rest ok (i + 1)

/-- The downloaded-input list handed to `createShakaArgs`: each input with its
filename replaced by the local result of its download. -/
def downloadedInputs (opts : PackageOptions) (stagingDir : FsPath) : List Input :=
  (opts.inputs.zip (opts.inputs.map (planFor opts stagingDir))).map
    (fun pi => { pi.1 with filename := pi.2.resultPath })

/-- The shaka-packager invocation (program and arguments) of `createPackage`. -/
def shakaArgsOf (opts : PackageOptions) (stagingDir : FsPath) : List String :=
  createShakaArgs (downloadedInputs opts stagingDir) opts.noImplicitAudio
    opts.packageFormatOptions

/-- src/packager.ts `createPackage`: download all inputs concurrently, then
invoke the shaka packager on the rewritten inputs with the staging directory
as working directory. -/
def createPackageRun (opts : PackageOptions) (stagingDir : FsPath) (o : RunOracle)
    (fs : FS) : Except String Unit × FS × List FsEvent :=
  match dlFirstError (opts.inputs.map (planFor opts stagingDir)) o.dlOk 0 with
  | some e =>
    (.error e,
     { fs with files :=
         fs.files ++ dlWrites (opts.inputs.map (planFor opts stagingDir)) o.dlOk 0 },
     dlEvents (opts.inputs.map (planFor opts stagingDir)))
  | none =>
    if o.packagerOk then
      (.ok (),
       { fs with files :=
           fs.files ++ dlWrites (opts.inputs.map (planFor opts stagingDir)) o.dlOk 0
             ++ o.packagerOutputs.map (fun f => stagingDir ++ strToPath f) },
       dlEvents (opts.inputs.map (planFor opts stagingDir)) ++
         [FsEvent.spawnPackager (jsOr opts.shakaExecutable "packager")
           (shakaArgsOf opts stagingDir)])
    else
      (.error "Packager failed",
       { fs with files :=
           fs.files ++ dlWrites (opts.inputs.map (planFor opts stagingDir)) o.dlOk 0 },
       dlEvents (opts.inputs.map (planFor opts stagingDir)) ++
         [FsEvent.spawnPackager (jsOr opts.shakaExecutable "packager")
           (shakaArgsOf opts stagingDir)])

/-- The path `removeDownloadedFiles` unlinks for one input:
`join(stagingDir, filename.includes('://') ? basename(filename) : filename)`. -/
def removedPath (stagingDir : FsPath) (input : Input) : FsPath :=
  stagingDir ++
    (if strContains input.filename "://" then [basename input.filename]
     else strToPath input.filename)

/-- src/packager.ts `removeDownloadedFiles`: unlink each input's computed
local path if it exists. -/
def removeDownloadedFilesRun (inputs : List Input) (stagingDir : FsPath)
    (fs : FS) : FS × List FsEvent :=
  inputs.foldl
    (fun acc input =>
      let p := removedPath stagingDir input
      if p ∈ acc.1.files then
        ({ acc.1 with files := acc.1.files.filter (fun q => q ≠ p) },
         acc.2 ++ [FsEvent.unlink p])
      else acc)
    (fs, [])

/-- Relocation performed by `readdir` + per-entry `mv`: every file below the
staging directory moves below the destination directory. -/
def relocate (stagingDir destDir : FsPath) (p : FsPath) : FsPath :=
  if stagingDir.isPrefixOf p then destDir ++ p.drop stagingDir.length else p

/-- src/packager.ts `uploadPackage`. -/
def uploadPackageRun (dest : Url) (stagingDir : FsPath) (ep : Option String)
    (o : RunOracle) (fs : FS) : Except String Unit × FS × List FsEvent :=
  if dest.protocol = "" ∨ dest.protocol = "file:" then
    (.ok (),
     { mkdirpFS (strToPath dest.pathname) fs with
         files := fs.files.map (relocate stagingDir (strToPath dest.pathname)) },
     [FsEvent.mkdirp (strToPath dest.pathname),
      FsEvent.moveStaged stagingDir (strToPath dest.pathname)])
  else if dest.protocol = "s3:" then
    if o.uploadOk then
      (.ok (), fs,
       [FsEvent.spawnUpload "aws" (createS3cmdArgs
         ["cp", "--recursive", pathToStr stagingDir, dest.toStr] ep)])
    else
      (.error "Upload failed", fs,
       [FsEvent.spawnUpload "aws" (createS3cmdArgs
         ["cp", "--recursive", pathToStr stagingDir, dest.toStr] ep)])
  else
    (.error ("Unsupported protocol for upload: " ++ dest.protocol), fs, [])

/-- src/packager.ts `doPackage`: validate, prepare the staging directory,
create the package, for an s3 destination remove the downloaded source files,
upload, and clean up the staging directory.  There is no try/finally: an error
at any stage propagates immediately and the later stages do not run. -/
def doPackageRun (opts : PackageOptions) (jobId : String) (o : RunOracle)
    (fs0 : FS) : Except String Unit × FS × List FsEvent :=
  match validateOptions opts with
  | .error e => (.error e, fs0, [])
  | .ok _ =>
    let jobDir := jobDirOf opts jobId
    let pr := prepareRun opts jobId fs0
    match createPackageRun opts jobDir o pr.1 with
    | (.error e, fs2, ev2) => (.error e, fs2, pr.2 ++ ev2)
    | (.ok _, fs2, ev2) =>
      let rm :=
        if (toUrl opts.dest).protocol = "s3:" then
          removeDownloadedFilesRun opts.inputs jobDir fs2
        else (fs2, [])
      match uploadPackageRun (toUrl opts.dest) jobDir opts.s3EndpointUrl o rm.1 with
      | (.error e, fs4, ev4) => (.error e, fs4, pr.2 ++ ev2 ++ rm.2 ++ ev4)
      | (.ok _, fs4, ev4) =>
        (.ok (), rmrfP jobDir fs4,
         pr.2 ++ ev2 ++ rm.2 ++ ev4 ++ [FsEvent.rmrf jobDir])

/-! Sanity checks mirroring the repository's own jest tests. -/

example :
    createShakaArgs [{ type := InputType.video, key := "1", filename := "test.mp4" }]
      false {} =
    ["in=test.mp4,stream=video,playlist_name=video-1.m3u8,init_segment=video-1/init.mp4,segment_template=video-1/$Number$.m4s",
     "in=test.mp4,stream=audio,playlist_name=audio.m3u8,hls_group_id=audio,hls_name=defaultaudio,init_segment=audio/init.mp4,segment_template=audio/$Number$.m4s",
     "--hls_master_playlist_output", "index.m3u8",
     "--generate_static_live_mpd", "--mpd_output", "manifest.mpd"] := by
  decide

example :
    createShakaArgs [{ type := InputType.video, key := "1", filename := "test.mp4" }]
      true {} =
    ["in=test.mp4,stream=video,playlist_name=video-1.m3u8,init_segment=video-1/init.mp4,segment_template=video-1/$Number$.m4s",
     "--hls_master_playlist_output", "index.m3u8",
     "--generate_static_live_mpd", "--mpd_output", "manifest.mpd"] := by
  decide

example :
    createShakaArgs
      [{ type := InputType.video, key := "1", filename := "test.mp4" },
       { type := InputType.audio, key := "2", filename := "audio.mp4" }]
      true
      { segmentSingleFile := true,
        segmentSingleFileTemplate := some "Container-$KEY$.mp4" } =
    ["in=test.mp4,stream=video,playlist_name=video-1.m3u8,out=Container-1.mp4",
     "in=audio.mp4,stream=audio,playlist_name=audio.m3u8,hls_group_id=audio,hls_name=defaultaudio,out=Container-2.mp4",
     "--hls_master_playlist_output", "index.m3u8",
     "--generate_static_live_mpd", "--mpd_output", "manifest.mpd"] := by
  decide

example : createS3cmdArgs ["ls"] none = ["s3", "ls"] := by decide

example :
    createS3cmdArgs ["ls"] (some "https://my.api.url.com") =
    ["s3", "--endpoint-url=https://my.api.url.com", "ls"] := by decide

example :
    downloadPlan { type := InputType.video, key := "1", filename := "local.mp4" }
      none none none none = .localResult "local.mp4" := by decide

example :
    downloadPlan { type := InputType.video, key := "1", filename := "local.mp4" }
      (some (toUrl "file:///path/to/source/")) none none none =
    .localResult "/path/to/source/local.mp4" := by decide

example :
    downloadPlan { type := InputType.video, key := "1", filename := "remote.mp4" }
      (some (toUrl "https://example.com/")) none none none =
    .err "Staging directory required for remote download" := by decide

example :
    downloadPlan { type := InputType.video, key := "1", filename := "video.mp4" }
      (some (toUrl "s3://bucket/path/")) (some ["", "tmp", "test-staging"])
      none (some "https://s3.example.com") =
    .transfer "aws"
      ["s3", "--endpoint-url=https://s3.example.com", "cp",
       "s3://bucket/path/video.mp4", "/tmp/test-staging/video.mp4"]
      ["", "tmp", "test-staging", "video.mp4"] := by decide

example :
    downloadPlan
      { type := InputType.video, key := "1",
        filename := "https://cdn.example.com/videos/special.mp4" }
      none (some ["", "tmp", "test-staging"]) none none =
    .transfer "curl"
      ["-o", "/tmp/test-staging/special.mp4",
       "https://cdn.example.com/videos/special.mp4"]
      ["", "tmp", "test-staging", "special.mp4"] := by decide

example :
    downloadPlan { type := InputType.video, key := "1", filename := "video.mp4" }
      (some (toUrl "https://example.com/videos/")) (some ["", "tmp", "test-staging"])
      (some "test-token") none =
    .transfer "curl"
      ["-H", "x-jwt: Bearer test-token", "-o", "/tmp/test-staging/video.mp4",
       "https://example.com/videos/video.mp4"]
      ["", "tmp", "test-staging", "video.mp4"] := by decide

example :
    downloadPlan { type := InputType.video, key := "1", filename := "video.mp4" }
      (some (toUrl "ftp://example.com/")) (some ["", "tmp", "test-staging"])
      none none =
    .err "Unsupported protocol for download: ftp:" := by decide

example :
    downloadPlan { type := InputType.video, key := "1", filename := "nested/path/video.mp4" }
      (some (toUrl "s3://my-bucket/base/path/")) (some ["", "tmp", "test-staging"])
      none none =
    .transfer "aws"
      ["s3", "cp", "s3://my-bucket/base/path/nested/path/video.mp4",
       "/tmp/test-staging/nested/path/video.mp4"]
      ["", "tmp", "test-staging", "nested", "path", "video.mp4"] := by decide

/-! ## Theorems -/

/-- C1: `createShakaArgs` emits the audio clause per the decision table of
`getInputForAudio`: a first explicit audio input is always used; with no audio
input and implicit audio allowed the first video input is used (the clause,
`audioClauseFor`, reads that input's file and defaults its HLS name to
'defaultaudio'); with no audio input and `noImplicitAudio` set, no audio
clause is emitted at all. -/
theorem createShakaArgs_audio_decision (inputs : List Input) (nia : Bool)
    (pfo : PackageFormatOptions) :
    (∀ a, inputs.find? (fun i => i.type == InputType.audio) = some a →
      createShakaArgs inputs nia pfo =
        streamClauses pfo inputs ++ [audioClauseFor inputs pfo a] ++
          globalFlags pfo) ∧
    (inputs.find? (fun i => i.type == InputType.audio) = none → nia = false →
      createShakaArgs inputs nia pfo =
        streamClauses pfo inputs ++
          ((inputs.find? (fun i => i.type == InputType.video)).map
            (audioClauseFor inputs pfo)).toList ++
          globalFlags pfo) ∧
    (inputs.find? (fun i => i.type == InputType.audio) = none → nia = true →
      createShakaArgs inputs nia pfo =
        streamClauses pfo inputs ++ globalFlags pfo) := by
  refine ⟨?_, ?_, ?_⟩
  · intro a ha
    unfold createShakaArgs audioClause getInputForAudio
    cases nia <;> simp [ha]
  · intro ha hn
    subst hn
    unfold createShakaArgs audioClause getInputForAudio
    simp [ha]
  · intro ha hn
    subst hn
    unfold createShakaArgs audioClause getInputForAudio
    simp [ha]

def w1audio : Input := { type := InputType.audio, key := "a1", filename := "a.mp4" }

def w1inputs : List Input :=
  [{ type := InputType.video, key := "1", filename := "v.mp4" }, w1audio]

/-- Witness for C1 at a list with an explicit audio input. -/
theorem createShakaArgs_audio_decision_witness :
    createShakaArgs w1inputs false {} =
      streamClauses {} w1inputs ++ [audioClauseFor w1inputs {} w1audio] ++
        globalFlags {} :=
  (createShakaArgs_audio_decision w1inputs false {}).1 w1audio (by decide)

/-- C5: when the input's own filename embeds a full location (contains '://'),
`download` resolves and fetches that location and the `source` argument has no
effect on the plan: neither on the returned local path nor on the transfer
command issued. -/
theorem download_ignores_source_for_absolute_filename (input : Input)
    (source : Option Url) (stagingDir : Option FsPath) (tok ep : Option String)
    (h : strContains input.filename "://" = true) :
    downloadPlan input source stagingDir tok ep =
      downloadPlan input none stagingDir tok ep := by
  unfold downloadPlan
  rw [h]
  rfl

def w5input : Input :=
  { type := InputType.video, key := "1", filename := "s3://bucket/a/b.mp4" }

/-- Witness for C5: an s3 URL in the filename with a conflicting source root. -/
theorem download_ignores_source_for_absolute_filename_witness :
    downloadPlan w5input (some (toUrl "s3://other/root")) (some ["", "tmp", "x"])
        none none =
      downloadPlan w5input none (some ["", "tmp", "x"]) none none :=
  download_ignores_source_for_absolute_filename w5input _ _ _ _ (by decide)

/-- C6: with both `hlsOnly` and `dashOnly` set, `doPackage` throws
'Cannot disable both hls and dash' leaving the filesystem untouched and with
an empty effect trace: no staging directory is created and no download or
subprocess is attempted. -/
theorem doPackage_rejects_hls_and_dash_only (opts : PackageOptions)
    (jobId : String) (o : RunOracle) (fs : FS)
    (h1 : opts.packageFormatOptions.hlsOnly = true)
    (h2 : opts.packageFormatOptions.dashOnly = true) :
    doPackageRun opts jobId o fs =
      (.error "Cannot disable both hls and dash", fs, []) := by
  unfold doPackageRun validateOptions
  rw [h1, h2]
  rfl

def oracleAllOk : RunOracle :=
  { dlOk := fun _ => true, packagerOk := true, packagerOutputs := [],
    uploadOk := true }

def w6opts : PackageOptions :=
  { inputs := [{ type := InputType.video, key := "1", filename := "v.mp4" }],
    dest := ".",
    packageFormatOptions := { hlsOnly := true, dashOnly := true } }

/-- Witness for C6. -/
theorem doPackage_rejects_hls_and_dash_only_witness :
    doPackageRun w6opts "job1" oracleAllOk ⟨[], []⟩ =
      (.error "Cannot disable both hls and dash", ⟨[], []⟩, []) :=
  doPackage_rejects_hls_and_dash_only w6opts "job1" oracleAllOk ⟨[], []⟩ rfl rfl

/-- C9 (code bug): the CLI parser of src/cli.ts maps a `t:`-typed input
specification to a video input and drops the trailing label, although the
repository README documents `[a|v|t]:<key>=<filename>[:hlsName]` and
src/packager.ts supports text inputs with an `hlsName`. -/
theorem parseInputOptions_drops_text_type_and_label :
    parseInputOptions ["t:sv=subs.vtt:Swedish", "v:1=video.mp4:My label"] =
      [{ type := InputType.video, key := "sv", filename := "subs.vtt",
         hlsName := none },
       { type := InputType.video, key := "1", filename := "video.mp4",
         hlsName := none }] := by
  decide

def c4input : Input :=
  { type := InputType.video, key := "1", filename := "videos/clip.mp4" }

def c4staging : FsPath := ["", "tmp", "data", "job1"]

/-- C4 (code bug): for an HTTP source and an input filename with a directory
component, `download` stores the file under the basename, but
`removeDownloadedFiles` unlinks the full-filename path; the downloaded file is
left in the staging directory (and would be uploaded alongside the package). -/
theorem removeDownloadedFiles_misses_nested_http_download :
    downloadPlan c4input (some (toUrl "http://host/media")) (some c4staging)
        none none =
      .transfer "curl"
        ["-o", "/tmp/data/job1/clip.mp4", "http://host/media/videos/clip.mp4"]
        (c4staging ++ ["clip.mp4"]) ∧
    removedPath c4staging c4input = c4staging ++ ["videos", "clip.mp4"] ∧
    (removeDownloadedFilesRun [c4input] c4staging
        { dirs := [c4staging], files := [c4staging ++ ["clip.mp4"]] }).1.files =
      [c4staging ++ ["clip.mp4"]] := by
  decide

def c2video1 : Input :=
  { type := InputType.video, key := "audio-1", filename := "v1.mp4" }

def c2video2 : Input :=
  { type := InputType.video, key := "1", filename := "v2.mp4" }

def c2audio : Input :=
  { type := InputType.audio, key := "1", filename := "a.mp4" }

def c2inputs : List Input := [c2video1, c2video2, c2audio]

def c2pfo : PackageFormatOptions :=
  { segmentSingleFile := true, segmentSingleFileTemplate := some "$KEY$.mp4" }

/-- C2 counterexample: the disambiguated audio key `audio-1` collides with a
*different* video input whose key is literally `audio-1` (keys are unique per
kind and the template passes validation): the audio clause and that video
clause emit the same out= filename. -/
theorem audio_out_collides_with_other_video :
    getInputForAudio c2inputs false = some c2audio ∧
    c2inputs.any
      (fun i => i.type == InputType.video && i.key == c2audio.key) = true ∧
    errMsg (validateOptions
      { inputs := c2inputs, dest := ".", packageFormatOptions := c2pfo }) = none ∧
    audioSingleFileOut c2inputs c2pfo c2audio = "audio-1.mp4" ∧
    videoSingleFileOut c2pfo c2video1 = "audio-1.mp4" ∧
    createShakaArgs c2inputs false c2pfo =
      ["in=v1.mp4,stream=video,playlist_name=video-audio-1.m3u8,out=audio-1.mp4",
       "in=v2.mp4,stream=video,playlist_name=video-1.m3u8,out=1.mp4",
       "in=a.mp4,stream=audio,playlist_name=audio.m3u8,hls_group_id=audio,hls_name=defaultaudio,out=audio-1.mp4",
       "--hls_master_playlist_output", "index.m3u8",
       "--generate_static_live_mpd", "--mpd_output", "manifest.mpd"] := by
  decide

theorem streamClauses_append (pfo : PackageFormatOptions) (l1 l2 : List Input) :
    streamClauses pfo (l1 ++ l2) = streamClauses pfo l1 ++ streamClauses pfo l2 := by
  unfold streamClauses
  exact List.filterMap_append l1 l2 _

theorem streamClauses_cons_audio (pfo : PackageFormatOptions) (b : Input)
    (l : List Input) (hb : b.type = InputType.audio) :
    streamClauses pfo (b :: l) = streamClauses pfo l := by
  unfold streamClauses
  rw [List.filterMap_cons, hb]

/-- C10: only the first audio input matters: the selected audio input comes
from the prefix ending at the first audio input, and deleting a later audio
input `b` does not change the produced argument list at all. -/
theorem createShakaArgs_uses_first_audio_only (xs ys zs : List Input)
    (a b : Input) (nia : Bool) (pfo : PackageFormatOptions)
    (ha : a.type = InputType.audio) (hb : b.type = InputType.audio) :
    getInputForAudio (xs ++ a :: (ys ++ b :: zs)) nia =
      (xs ++ [a]).find? (fun i => i.type == InputType.audio) ∧
    createShakaArgs (xs ++ a :: (ys ++ b :: zs)) nia pfo =
      createShakaArgs (xs ++ a :: (ys ++ zs)) nia pfo := by
  have hconsa : ∀ l : List Input,
      (a :: l).find? (fun i => i.type == InputType.audio) = some a := by
    intro l
    simp [List.find?_cons, ha]
  have hfind : ∀ rest : List Input,
      (xs ++ a :: rest).find? (fun i => i.type == InputType.audio) =
        (xs ++ [a]).find? (fun i => i.type == InputType.audio) := by
    intro rest
    rw [List.find?_append, List.find?_append, hconsa rest, hconsa []]
  have hsome : ∀ rest : List Input,
      ((xs ++ a :: rest).find? (fun i => i.type == InputType.audio)).isSome
        = true := by
    intro rest
    rw [hfind rest, List.find?_append, hconsa []]
    rcases hx : xs.find? (fun i => i.type == InputType.audio) with _ | v
    · rw [hx]; rfl
    · rw [hx]; rfl
  have hget : ∀ rest : List Input,
      getInputForAudio (xs ++ a :: rest) nia =
        (xs ++ [a]).find? (fun i => i.type == InputType.audio) := by
    intro rest
    unfold getInputForAudio
    cases nia with
    | false =>
      simp only [Bool.false_eq_true, if_false]
      rcases hx : (xs ++ a :: rest).find? (fun i => i.type == InputType.audio)
        with _ | v
      · exfalso
        have hs := hsome rest
        rw [hx] at hs
        exact Bool.false_ne_true hs
      · rw [hx, ← hfind rest, hx]
    | true => simp only [if_true, hfind]
  have hany : ∀ k : String,
      (xs ++ a :: (ys ++ b :: zs)).any
        (fun i => i.type == InputType.video && i.key == k) =
      (xs ++ a :: (ys ++ zs)).any
        (fun i => i.type == InputType.video && i.key == k) := by
    intro k
    have hqb : (b.type == InputType.video && b.key == k) = false := by
      rw [hb]; rfl
    simp only [List.any_append, List.any_cons, hqb, Bool.false_or]
  have hclause : ∀ v : Input,
      audioClauseFor (xs ++ a :: (ys ++ b :: zs)) pfo v =
        audioClauseFor (xs ++ a :: (ys ++ zs)) pfo v := by
    intro v
    unfold audioClauseFor audioStreamOptions audioSingleFileOut audioOutKey
    rw [hany]
  refine ⟨hget _, ?_⟩
  have herase : ∀ (l1 l2 : List Input),
      streamClauses pfo (l1 ++ b :: l2) = streamClauses pfo (l1 ++ l2) := by
    intro l1 l2
    rw [streamClauses_append, streamClauses_append,
      streamClauses_cons_audio pfo b l2 hb]
  have hsc : streamClauses pfo (xs ++ a :: (ys ++ b :: zs)) =
      streamClauses pfo (xs ++ a :: (ys ++ zs)) := by
    rw [show xs ++ a :: (ys ++ b :: zs) = (xs ++ a :: ys) ++ b :: zs by simp,
      show xs ++ a :: (ys ++ zs) = (xs ++ a :: ys) ++ zs by simp]
    exact herase (xs ++ a :: ys) zs
  have hac : audioClause (xs ++ a :: (ys ++ b :: zs)) nia pfo =
      audioClause (xs ++ a :: (ys ++ zs)) nia pfo := by
    unfold audioClause
    rw [hget (ys ++ b :: zs), hget (ys ++ zs)]
    rcases hsel : (xs ++ [a]).find? (fun i => i.type == InputType.audio)
      with _ | v
    · rw [hsel]; rfl
    · rw [hsel, Option.map_some', Option.map_some', hclause v]
  unfold createShakaArgs
  rw [hsc, hac]

def w10a : Input := { type := InputType.audio, key := "1", filename := "a1.mp4" }

def w10b : Input := { type := InputType.audio, key := "2", filename := "a2.mp4" }

/-- Witness for C10: dropping a second audio input changes nothing. -/
theorem createShakaArgs_uses_first_audio_only_witness :
    createShakaArgs [w10a, w10b] false {} = createShakaArgs [w10a] false {} :=
  (createShakaArgs_uses_first_audio_only [] [] [] w10a w10b false {} rfl rfl).2

/-- C2 amended: when single-file addressing is active and the template (if
present and nonempty) contains `$KEY$` as validation requires, the audio out=
filename differs from the out= filename of every *same-keyed* video input
(that is what the `audio-` prefixing guarantees; a video whose key literally
equals `audio-<key>` can still collide, see the counterexample). -/
theorem audio_out_differs_from_same_key_video_out (inputs : List Input)
    (pfo : PackageFormatOptions) (a v : Input)
    (hv : v ∈ inputs) (hvt : v.type = InputType.video) (hkey : v.key = a.key)
    (htmpl : ∀ t, pfo.segmentSingleFileTemplate = some t → t ≠ "" →
      strContains t "$KEY$" = true) :
    audioSingleFileOut inputs pfo a ≠ videoSingleFileOut pfo v := by
  have hany : inputs.any
      (fun i => i.type == InputType.video && i.key == a.key) = true := by
    apply List.any_eq_true.mpr
    refine ⟨v, hv, ?_⟩
    rw [hvt, hkey]
    simp
  have hko : audioOutKey inputs a = "audio-" ++ a.key := by
    unfold audioOutKey
    rw [hany]
    rfl
  have e6 : ("audio-" : String).length = 6 := rfl
  have e9 : ("audio.mp4" : String).length = 9 := rfl
  have e6v : ("video-" : String).length = 6 := rfl
  have e4 : (".mp4" : String).length = 4 := rfl
  unfold audioSingleFileOut videoSingleFileOut
  rw [hko, hkey]
  have e0 : ("" : String).length = 0 := rfl
  rcases hT : pfo.segmentSingleFileTemplate with _ | t
  · unfold singleFileOutName
    intro hEq
    have hlen := congrArg String.length hEq
    simp only [String.length_append, e9, e6v, e4] at hlen
    omega
  · by_cases ht0 : t = ""
    · subst ht0
      have hrf : ∀ rep : String, replaceFirst "" "$KEY$" rep = "" := fun _ => rfl
      simp only [singleFileOutName, hrf, eq_self_iff_true, if_true]
      intro hEq
      have hlen := congrArg String.length hEq
      simp only [String.length_append, e9, e6v, e4] at hlen
      omega
    · have hc' : 2 ≤ (splitOnL t "$KEY$").length :=
        of_decide_eq_true (htmpl t hT ht0)
      rcases hsplit : splitOnL t "$KEY$" with _ | ⟨p, _ | ⟨q, rest⟩⟩
      · rw [hsplit] at hc'; simp at hc'
      · rw [hsplit] at hc'; simp at hc'
      · have hrf : ∀ rep : String, replaceFirst t "$KEY$" rep =
            p ++ rep ++ String.intercalate "$KEY$" (q :: rest) := by
          intro rep
          unfold replaceFirst
          rw [hsplit]
        simp only [singleFileOutName, hrf]
        have hra : ¬ (p ++ ("audio-" ++ a.key) ++
            String.intercalate "$KEY$" (q :: rest) = "") := by
          intro hEq
          have hlen := congrArg String.length hEq
          simp only [String.length_append, e6, e0] at hlen
          omega
        rw [if_neg hra]
        by_cases hrv : p ++ a.key ++ String.intercalate "$KEY$" (q :: rest) = ""
        · rw [if_pos hrv]
          intro hEq
          have h1 := congrArg String.length hrv
          have h2 := congrArg String.length hEq
          simp only [String.length_append, e6, e6v, e4, e0] at h1 h2
          omega
        · rw [if_neg hrv]
          intro hEq
          have h2 := congrArg String.length hEq
          simp only [String.length_append, e6] at h2
          omega

def w2video : Input := { type := InputType.video, key := "1", filename := "v.mp4" }

def w2audio : Input := { type := InputType.audio, key := "1", filename := "a.mp4" }

def w2pfo : PackageFormatOptions :=
  { segmentSingleFile := true,
    segmentSingleFileTemplate := some "seg-$KEY$.mp4" }

/-- Witness for the amended C2: a video and an audio input sharing key "1". -/
theorem audio_out_differs_from_same_key_video_out_witness :
    audioSingleFileOut [w2video, w2audio] w2pfo w2audio ≠
      videoSingleFileOut w2pfo w2video :=
  audio_out_differs_from_same_key_video_out [w2video, w2audio] w2pfo w2audio
    w2video (by decide) rfl rfl
    (fun t ht h0 => by
      have h : "seg-$KEY$.mp4" = t := Option.some.inj ht
      rw [← h]
      decide)

def c3opts : PackageOptions :=
  { inputs := [{ type := InputType.video, key := "1", filename := "v.mp4" }],
    source := some "s3://bucket/src", dest := ".",
    stagingDir := some "/tmp/data" }

def oracleDlFail : RunOracle :=
  { dlOk := fun _ => false, packagerOk := true, packagerOutputs := [],
    uploadOk := true }

/-- C3 counterexample: when a download fails, `doPackage` throws and the
per-run staging directory it created is *not* deleted (there is no
try/finally around the pipeline). -/
theorem doPackage_failure_leaves_staging :
    errMsg (doPackageRun c3opts "job1" oracleDlFail ⟨[], []⟩).1 =
      some "Download failed" ∧
    jobDirOf c3opts "job1" ∈
      (doPackageRun c3opts "job1" oracleDlFail ⟨[], []⟩).2.1.dirs := by
  decide

theorem doPackageRun_ok_fs (opts : PackageOptions) (jobId : String)
    (o : RunOracle) (fs0 : FS) :
    (doPackageRun opts jobId o fs0).1 = .ok () →
    ∃ fs', (doPackageRun opts jobId o fs0).2.1 =
      rmrfP (jobDirOf opts jobId) fs' := by
  unfold doPackageRun
  rcases hval : validateOptions opts with e | u
  · intro h
    simp at h
  · dsimp only
    rcases hc : createPackageRun opts (jobDirOf opts jobId) o
        (prepareRun opts jobId fs0).1 with ⟨rc, fs2, ev2⟩
    rcases rc with e | u2
    · intro h
      simp at h
    · dsimp only
      rcases hu : uploadPackageRun (toUrl opts.dest) (jobDirOf opts jobId)
          opts.s3EndpointUrl o
          (if (toUrl opts.dest).protocol = "s3:" then
            removeDownloadedFilesRun opts.inputs (jobDirOf opts jobId) fs2
          else (fs2, [])).1 with ⟨ru, fs4, ev4⟩
      rcases ru with e | u3
      · intro h
        simp at h
      · intro _
        exact ⟨fs4, rfl⟩

/-- C3 amended: when `doPackage` returns successfully the staging directory
(and everything below it) has been deleted; on a thrown error it is left
behind (see the counterexample). -/
theorem doPackage_success_removes_staging (opts : PackageOptions)
    (jobId : String) (o : RunOracle) (fs0 : FS)
    (h : (doPackageRun opts jobId o fs0).1 = .ok ()) :
    jobDirOf opts jobId ∉ (doPackageRun opts jobId o fs0).2.1.dirs ∧
    ∀ p ∈ (doPackageRun opts jobId o fs0).2.1.files,
      (jobDirOf opts jobId).isPrefixOf p = false := by
  obtain ⟨fs', hfs⟩ := doPackageRun_ok_fs opts jobId o fs0 h
  rw [hfs]
  constructor
  · intro hmem
    have hp := (List.mem_filter.mp hmem).2
    rw [List.isPrefixOf_iff_prefix.mpr (List.prefix_refl _)] at hp
    exact Bool.false_ne_true (by simp at hp)
  · intro p hp
    have hq := (List.mem_filter.mp hp).2
    rcases hb : (jobDirOf opts jobId).isPrefixOf p with _ | _
    · rfl
    · rw [hb] at hq
      simp at hq

def w3opts : PackageOptions :=
  { inputs := [{ type := InputType.video, key := "1", filename := "test.mp4" }],
    dest := "out" }

/-- Witness for the amended C3: a successful all-local run deletes the
staging directory. -/
theorem doPackage_success_removes_staging_witness :
    jobDirOf w3opts "job1" ∉
      (doPackageRun w3opts "job1" oracleAllOk ⟨[], []⟩).2.1.dirs :=
  (doPackage_success_removes_staging w3opts "job1" oracleAllOk ⟨[], []⟩
    (by rfl)).1

theorem dlFirstError_isSome_of_failed (plans : List DlPlan) (ok : Nat → Bool) :
    ∀ i j p, plans.get? j = some p → p.isTransfer = true → ok (i + j) = false →
      (dlFirstError plans ok i).isSome = true := by
  induction plans with
  | nil =>
    intro i j p hj
    simp at hj
  | cons hd tl ih =>
    intro i j p hj ht hf
    cases j with
    | zero =>
      simp at hj
      subst hj
      rcases hd with s | ⟨pr, ar, lp⟩ | m
      · simp [DlPlan.isTransfer] at ht
      · unfold dlFirstError
        rw [show i + 0 = i from rfl] at hf
        rw [hf]
        rfl
      · simp [DlPlan.isTransfer] at ht
    | succ j' =>
      simp only [List.get?_cons_succ] at hj
      have hf' : ok ((i + 1) + j') = false := by
        rw [show (i + 1) + j' = i + (j' + 1) from by omega]
        exact hf
      rcases hd with s | ⟨pr, ar, lp⟩ | m
      · unfold dlFirstError
        exact ih (i + 1) j' p hj ht hf'
      · unfold dlFirstError
        by_cases hoi : ok i
        · rw [if_pos hoi]
          exact ih (i + 1) j' p hj ht hf'
        · rw [if_neg hoi]
          rfl
      · unfold dlFirstError
        rfl

theorem dlEvents_no_packager (plans : List DlPlan) :
    ∀ ev ∈ dlEvents plans, ev.isSpawnPackager = false := by
  intro ev hev
  unfold dlEvents at hev
  rw [List.mem_filterMap] at hev
  obtain ⟨p, _, hp⟩ := hev
  rcases p with s | ⟨pr, ar, lp⟩ | m
  · simp at hp
  · simp at hp
    rw [← hp]
    rfl
  · simp at hp

theorem createPackageRun_error_of_failed_transfer (opts : PackageOptions)
    (stagingDir : FsPath) (o : RunOracle) (fs : FS) (i : Nat) (input : Input)
    (hi : opts.inputs.get? i = some input)
    (ht : (planFor opts stagingDir input).isTransfer = true)
    (hf : o.dlOk i = false) :
    ∃ e, (createPackageRun opts stagingDir o fs).1 = .error e := by
  have hp : (opts.inputs.map (planFor opts stagingDir)).get? i =
      some (planFor opts stagingDir input) := by
    rw [List.get?_map, hi]
    rfl
  have hs := dlFirstError_isSome_of_failed
    (opts.inputs.map (planFor opts stagingDir)) o.dlOk 0 i
    (planFor opts stagingDir input) hp ht (by rw [Nat.zero_add]; exact hf)
  unfold createPackageRun
  rcases he : dlFirstError (opts.inputs.map (planFor opts stagingDir)) o.dlOk 0
    with _ | e
  · rw [he] at hs
    simp at hs
  · exact ⟨e, rfl⟩

theorem createPackageRun_trace_of_dlError (opts : PackageOptions)
    (stagingDir : FsPath) (o : RunOracle) (fs : FS) (e : String)
    (he : dlFirstError (opts.inputs.map (planFor opts stagingDir)) o.dlOk 0 =
      some e) :
    (createPackageRun opts stagingDir o fs).2.2 =
      dlEvents (opts.inputs.map (planFor opts stagingDir)) := by
  unfold createPackageRun
  rw [he]

theorem prepareRun_no_packager (opts : PackageOptions) (jobId : String)
    (fs : FS) : ∀ ev ∈ (prepareRun opts jobId fs).2,
      ev.isSpawnPackager = false := by
  intro ev hev
  unfold prepareRun at hev
  by_cases hmem : jobDirOf opts jobId ∈ fs.dirs
  · rw [if_pos hmem] at hev
    simp at hev
  · rw [if_neg hmem] at hev
    simp at hev
    rw [hev]
    rfl

/-- C7: if the transfer command of some input exits non-zero, that `download`
throws 'Download failed', `createPackage` fails without ever spawning the
external packager, and the whole `doPackage` run fails, also without spawning
the packager. -/
theorem download_failure_fails_run (opts : PackageOptions) (jobId : String)
    (o : RunOracle) (fs : FS) (i : Nat) (input : Input)
    (hi : opts.inputs.get? i = some input)
    (ht : (planFor opts (jobDirOf opts jobId) input).isTransfer = true)
    (hf : o.dlOk i = false) :
    runDownload (planFor opts (jobDirOf opts jobId) input) (o.dlOk i) =
      .error "Download failed" ∧
    (∃ e, (createPackageRun opts (jobDirOf opts jobId) o fs).1 = .error e) ∧
    (∀ ev ∈ (createPackageRun opts (jobDirOf opts jobId) o fs).2.2,
      ev.isSpawnPackager = false) ∧
    (∃ e, (doPackageRun opts jobId o fs).1 = .error e) ∧
    (∀ ev ∈ (doPackageRun opts jobId o fs).2.2,
      ev.isSpawnPackager = false) := by
  have h1 : runDownload (planFor opts (jobDirOf opts jobId) input) (o.dlOk i) =
      .error "Download failed" := by
    rcases hpl : planFor opts (jobDirOf opts jobId) input
      with s | ⟨pr, ar, lp⟩ | m
    · rw [hpl] at ht
      simp [DlPlan.isTransfer] at ht
    · unfold runDownload
      rw [hf]
      rfl
    · rw [hpl] at ht
      simp [DlPlan.isTransfer] at ht
  have hp : (opts.inputs.map (planFor opts (jobDirOf opts jobId))).get? i =
      some (planFor opts (jobDirOf opts jobId) input) := by
    rw [List.get?_map, hi]
    rfl
  have hsome := dlFirstError_isSome_of_failed
    (opts.inputs.map (planFor opts (jobDirOf opts jobId))) o.dlOk 0 i
    (planFor opts (jobDirOf opts jobId) input) hp ht
    (by rw [Nat.zero_add]; exact hf)
  have hceAt : ∀ fsx : FS,
      ∃ e, (createPackageRun opts (jobDirOf opts jobId) o fsx).1 = .error e :=
    fun fsx => createPackageRun_error_of_failed_transfer opts
      (jobDirOf opts jobId) o fsx i input hi ht hf
  have htrAt : ∀ fsx : FS,
      ∀ ev ∈ (createPackageRun opts (jobDirOf opts jobId) o fsx).2.2,
        ev.isSpawnPackager = false := by
    intro fsx
    rcases hd : dlFirstError (opts.inputs.map
        (planFor opts (jobDirOf opts jobId))) o.dlOk 0 with _ | e'
    · rw [hd] at hsome
      simp at hsome
    · rw [createPackageRun_trace_of_dlError opts (jobDirOf opts jobId) o fsx
        e' hd]
      exact dlEvents_no_packager _
  refine ⟨h1, hceAt fs, htrAt fs, ?_, ?_⟩
  · unfold doPackageRun
    rcases hval : validateOptions opts with e | u
    · exact ⟨e, rfl⟩
    · dsimp only
      obtain ⟨e, he⟩ := hceAt (prepareRun opts jobId fs).1
      rcases hc : createPackageRun opts (jobDirOf opts jobId) o
          (prepareRun opts jobId fs).1 with ⟨rc, fs2, ev2⟩
      rcases rc with e2 | u2
      · exact ⟨e2, rfl⟩
      · rw [hc] at he
        simp at he
  · unfold doPackageRun
    rcases hval : validateOptions opts with e | u
    · intro ev hev
      simp at hev
    · dsimp only
      obtain ⟨e, he⟩ := hceAt (prepareRun opts jobId fs).1
      rcases hc : createPackageRun opts (jobDirOf opts jobId) o
          (prepareRun opts jobId fs).1 with ⟨rc, fs2, ev2⟩
      rcases rc with e2 | u2
      · intro ev hev
        simp only [List.mem_append] at hev
        rcases hev with hev | hev
        · exact prepareRun_no_packager opts jobId fs ev hev
        · have hev2 := htrAt (prepareRun opts jobId fs).1
          rw [hc] at hev2
          exact hev2 ev hev
      · rw [hc] at he
        simp at he

def w7opts : PackageOptions :=
  { inputs := [{ type := InputType.video, key := "1", filename := "v.mp4" }],
    source := some "s3://bucket/src", dest := "." }

/-- Witness for C7: the failed transfer of the single input throws
'Download failed'. -/
theorem download_failure_fails_run_witness :
    runDownload
      (planFor w7opts (jobDirOf w7opts "job1")
        { type := InputType.video, key := "1", filename := "v.mp4" })
      (oracleDlFail.dlOk 0) = .error "Download failed" :=
  (download_failure_fails_run w7opts "job1" oracleDlFail ⟨[], []⟩ 0
    { type := InputType.video, key := "1", filename := "v.mp4" }
    rfl (by decide) rfl).1

def c8staging : FsPath := ["", "tmp", "data", "job1"]

def c8dest : Url := { protocol := "file:", host := "", pathname := "/tmp/data/job1" }

/-- C8 counterexample: a local destination equal to the staging directory
itself: every staged file "moves" onto its own path, so the staged files are
all still in the staging directory afterwards. -/
theorem upload_local_dest_inside_staging_leaves_files :
    strToPath c8dest.pathname = c8staging ∧
    (uploadPackageRun c8dest c8staging none oracleAllOk
        { dirs := [c8staging], files := [c8staging ++ ["index.m3u8"]] }).2.1.files =
      [c8staging ++ ["index.m3u8"]] ∧
    c8staging.isPrefixOf (c8staging ++ ["index.m3u8"]) = true := by
  decide

/-- C8 amended: for a destination with no scheme or the file: scheme whose
directory is disjoint from the staging directory (neither equal to it nor
nested either way — the unstated assumption the claim needs, see the
counterexample), `uploadPackage` succeeds, creates the destination directory,
moves every staged file below the destination directory, and leaves no file
below the staging directory. -/
theorem uploadPackage_local_moves_all (dest : Url) (st : FsPath)
    (ep : Option String) (o : RunOracle) (fs : FS)
    (hp : dest.protocol = "" ∨ dest.protocol = "file:")
    (hd1 : st.isPrefixOf (strToPath dest.pathname) = false)
    (hd2 : (strToPath dest.pathname).isPrefixOf st = false) :
    (uploadPackageRun dest st ep o fs).1 = .ok () ∧
    strToPath dest.pathname ∈ (uploadPackageRun dest st ep o fs).2.1.dirs ∧
    (∀ p ∈ fs.files, st.isPrefixOf p = true →
      strToPath dest.pathname ++ p.drop st.length ∈
        (uploadPackageRun dest st ep o fs).2.1.files) ∧
    (∀ p ∈ (uploadPackageRun dest st ep o fs).2.1.files,
      st.isPrefixOf p = false) := by
  have hnest : ∀ tail : FsPath,
      st.isPrefixOf (strToPath dest.pathname ++ tail) = false := by
    intro tail
    rcases hb : st.isPrefixOf (strToPath dest.pathname ++ tail) with _ | _
    · rfl
    · exfalso
      have hpre : st <+: strToPath dest.pathname ++ tail :=
        List.isPrefixOf_iff_prefix.mp hb
      rcases Nat.le_total st.length (strToPath dest.pathname).length with hle | hle
      · have : st <+: strToPath dest.pathname :=
          List.prefix_of_prefix_length_le hpre (List.prefix_append _ _) hle
        rw [List.isPrefixOf_iff_prefix.mpr this] at hd1
        simp at hd1
      · have : strToPath dest.pathname <+: st :=
          List.prefix_of_prefix_length_le (List.prefix_append _ _) hpre hle
        rw [List.isPrefixOf_iff_prefix.mpr this] at hd2
        simp at hd2
  unfold uploadPackageRun
  rw [if_pos hp]
  refine ⟨rfl, ?_, ?_, ?_⟩
  · unfold mkdirpFS
    by_cases hmem : strToPath dest.pathname ∈ fs.dirs
    · rw [if_pos hmem]
      exact hmem
    · rw [if_neg hmem]
      simp
  · intro p hmemp hpre
    dsimp only
    apply List.mem_map.mpr
    refine ⟨p, hmemp, ?_⟩
    unfold relocate
    rw [hpre]
    rfl
  · intro p hmemp
    dsimp only at hmemp
    obtain ⟨q, _, hq⟩ := List.mem_map.mp hmemp
    unfold relocate at hq
    rcases hb : st.isPrefixOf q with _ | _
    · rw [hb] at hq
      simp only [Bool.false_eq_true, if_false] at hq
      rw [← hq, hb]
    · rw [hb] at hq
      simp only [if_true] at hq
      rw [← hq]
      exact hnest _

def w8dest : Url := { protocol := "file:", host := "", pathname := "/out/pkg" }

def w8staging : FsPath := ["", "tmp", "data", "job1"]

def w8fs : FS :=
  { dirs := [w8staging], files := [w8staging ++ ["index.m3u8"]] }

/-- Witness for the amended C8: a disjoint local destination receives the
staged file and the upload reports success. -/
theorem uploadPackage_local_moves_all_witness :
    (uploadPackageRun w8dest w8staging none oracleAllOk w8fs).1 = .ok () ∧
    strToPath w8dest.pathname ∈
      (uploadPackageRun w8dest w8staging none oracleAllOk w8fs).2.1.dirs := by
  have h := uploadPackage_local_moves_all w8dest w8staging none oracleAllOk w8fs
    (Or.inr rfl) (by decide) (by decide)
  exact ⟨h.1, h.2.1⟩
